import Mathlib

/-!
Verification development for the preppy template compiler (preppy.py).

The Python source is shallowly embedded: Python text strings are `List Char`,
byte strings are `List Nat` (each element a byte value), and the dynamically
typed values flowing through the conversion/quoting runtime are an inductive
`PyV`.  Fallible Python operations (exceptions) are modelled with `Option` /
`Except`.  All definitions are computable so concrete runs can be checked by
`decide` / `rfl`.
-/

namespace Preppy

/-! ## UTF-8 codec

Models Python's `str.encode('utf8')` and `bytes.decode('utf8')` (strict mode:
continuation-byte, overlong-form, surrogate and range checks as in CPython).
-/

/-- Encode one code point to its UTF-8 byte sequence. -/
def utf8EncodeChar (c : Char) : List Nat :=
  let n := c.toNat
  if n < 0x80 then [n]
  else if n < 0x800 then [0xC0 + n / 64, 0x80 + n % 64]
  else if n < 0x10000 then [0xE0 + n / 4096, 0x80 + (n / 64) % 64, 0x80 + n % 64]
  else [0xF0 + n / 262144, 0x80 + (n / 4096) % 64, 0x80 + (n / 64) % 64, 0x80 + n % 64]

/-- `str.encode('utf8')`. -/
def utf8Encode (s : List Char) : List Nat :=
  match s with
  | [] => []
  | c :: r => utf8EncodeChar c ++ utf8Encode r

/-- Is `b` a UTF-8 continuation byte (`0x80..0xBF`)? -/
def isCont (b : Nat) : Bool := 0x80 ≤ b && b < 0xC0

/-- `bytes.decode('utf8')` (strict): `none` models `UnicodeDecodeError`. -/
def utf8Decode : List Nat → Option (List Char)
  | [] => some []
  | b :: rest =>
    if b < 0x80 then (utf8Decode rest).map (fun s => Char.ofNat b :: s)
    else if b < 0xC2 then none
    else if b < 0xE0 then
      match rest with
      | b1 :: rest1 =>
        if isCont b1 then
          (utf8Decode rest1).map (fun s => Char.ofNat ((b - 0xC0) * 64 + (b1 - 0x80)) :: s)
        else none
      | _ => none
    else if b < 0xF0 then
      match rest with
      | b1 :: b2 :: rest2 =>
        if isCont b1 && isCont b2 then
          let n := (b - 0xE0) * 4096 + (b1 - 0x80) * 64 + (b2 - 0x80)
          if 0x800 ≤ n && (n < 0xD800 || 0xE000 ≤ n) then
            (utf8Decode rest2).map (fun s => Char.ofNat n :: s)
          else none
        else none
      | _ => none
    else if b < 0xF5 then
      match rest with
      | b1 :: b2 :: b3 :: rest3 =>
        if isCont b1 && isCont b2 && isCont b3 then
          let n := (b - 0xF0) * 262144 + (b1 - 0x80) * 4096 + (b2 - 0x80) * 64 + (b3 - 0x80)
          if 0x10000 ≤ n && n ≤ 0x10FFFF then
            (utf8Decode rest3).map (fun s => Char.ofNat n :: s)
          else none
        else none
      | _ => none
    else none

/-! ## Python values

`PyV` covers the value shapes the conversion/quoting runtime distinguishes:
`None`, text strings (`str`, with a flag marking the `SafeUnicode` subclass),
byte strings (`bytes`, with a flag marking the `SafeString` subclass), and
other objects, represented by the text their `__str__` returns (in Python 3
`getattr(s,'__str__')` always succeeds, so `uStdConv`/`uStdQuote` reach
`str(s)`; the `__bytes__` fallback branch is unreachable).
-/

inductive PyV where
  | vNone : PyV
  | vStr (s : List Char) (safe : Bool) : PyV
  | vBytes (b : List Nat) (safe : Bool) : PyV
  | vObj (strv : List Char) : PyV
deriving DecidableEq

/-- `isinstance(v, bytes)` — `SafeString` is a `bytes` subclass. -/
def isBytesInst : PyV → Bool
  | .vBytes _ _ => true
  | _ => false

/-- `isinstance(v, str)` — `SafeUnicode` is a `str` subclass. -/
def isTextInst : PyV → Bool
  | .vStr _ _ => true
  | _ => false

/-- `asUtf8(s) = s if isinstance(s, bytes) else s.encode('utf8')`;
`none` models the `AttributeError` on values with no `encode`. -/
def asUtf8 : PyV → Option PyV
  | .vBytes b f => some (.vBytes b f)
  | .vStr s _ => some (.vBytes (utf8Encode s) false)
  | _ => none

/-- `asUnicode(s) = s if isinstance(s, str) else s.decode('utf8')`. -/
def asUnicode : PyV → Option PyV
  | .vStr s f => some (.vStr s f)
  | .vBytes b _ => (utf8Decode b).map (fun s => .vStr s false)
  | _ => none

/-- `uStdConv`: convert a value to text; `None` maps to the empty string,
non-strings go through `str()`, byte strings are utf8-decoded. -/
def uStdConv : PyV → Option PyV
  | .vNone => some (.vStr [] false)
  | .vObj sv => some (.vStr sv false)
  | .vStr s f => some (.vStr s f)
  | .vBytes b _ => (utf8Decode b).map (fun s => .vStr s false)

/-- `s.encode('utf8')` on the text result of a conversion. -/
def strEncodeUtf8 : PyV → Option PyV
  | .vStr s _ => some (.vBytes (utf8Encode s) false)
  | _ => none

/-- `bStdConv(s) = uStdConv(s).encode('utf8')`. -/
def bStdConv (v : PyV) : Option PyV := (uStdConv v).bind strEncodeUtf8

/-- Python's single-character `str.replace`. -/
def pyReplace1 (old : Char) (new : List Char) : List Char → List Char
  | [] => []
  | c :: r => (if c = old then new else [c]) ++ pyReplace1 old new r

/-- `xml.sax.saxutils.escape`: `&` first, then `<`, then `>`. -/
def xmlEscape (s : List Char) : List Char :=
  pyReplace1 '>' ("&gt;".toList)
    (pyReplace1 '<' ("&lt;".toList)
      (pyReplace1 '&' ("&amp;".toList) s))

/-- `uStdQuote`: XML-escape ordinary values; `SafeUnicode` passes through
unchanged and `SafeString` is utf8-decoded, both without escaping;
`None` maps to the empty string. -/
def uStdQuote : PyV → Option PyV
  | .vNone => some (.vStr [] false)
  | .vObj sv => some (.vStr (xmlEscape sv) false)
  | .vStr s safe =>
    if safe then some (.vStr s true) else some (.vStr (xmlEscape s) false)
  | .vBytes b safe =>
    if safe then (utf8Decode b).map (fun s => .vStr s false)
    else (utf8Decode b).map (fun s => .vStr (xmlEscape s) false)

/-- `bStdQuote(s) = uStdQuote(s).encode('utf8')`. -/
def bStdQuote (v : PyV) : Option PyV := (uStdQuote v).bind strEncodeUtf8

/-- `str(x)` used when `__get_conv__` defaults the literal converter to the
`str` class.  (For `bytes` arguments `str` returns the `repr` text; the exact
repr spelling is immaterial to every property proved below, so it is rendered
with a fixed quote choice.) -/
def reprBytesByte (n : Nat) : List Char :=
  if n = 92 then ['\\', '\\']
  else if n = 39 then ['\\', '\'']
  else if n = 9 then ['\\', 't']
  else if n = 10 then ['\\', 'n']
  else if n = 13 then ['\\', 'r']
  else if 32 ≤ n && n < 127 then [Char.ofNat n]
  else ['\\', 'x', (Nat.digitChar (n / 16)), (Nat.digitChar (n % 16))]

def pyStrFn : PyV → Option PyV
  | .vNone => some (.vStr ("None".toList) false)
  | .vStr s _ => some (.vStr s false)
  | .vObj sv => some (.vStr sv false)
  | .vBytes b _ =>
    some (.vStr (['b', '\''] ++ (b.map reprBytesByte).foldr (· ++ ·) [] ++ ['\'']) false)

/-- `bytes(x)` used when `__get_conv__` defaults the literal converter to the
`bytes` class; `bytes(str)` without an encoding raises `TypeError`. -/
def pyBytesFn : PyV → Option PyV
  | .vBytes b _ => some (.vBytes b false)
  | _ => none

/-- The empty `str` literal `''` probed by `__get_conv__`. -/
def emptyPyStr : PyV := .vStr [] false

/-- `__get_conv__(qf, lqf, b)`: resolve the expression-quote / literal-quote
pair.  A supplied function is `some f`; `none` is Python `None`.  The outer
`Option` is `none` when the probe call `qf('')` / `lqf('')` raises. -/
def get_conv (qf lqf : Option (PyV → Option PyV)) (b : Bool) :
    Option ((PyV → Option PyV) × (PyV → Option PyV)) :=
  match qf, lqf with
  | some q, none =>
    match q emptyPyStr with
    | none => none
    | some r => some (q, if isBytesInst r then asUtf8 else asUnicode)
  | none, some l =>
    match l emptyPyStr with
    | none => none
    | some r => some ((if isBytesInst r then bStdConv else uStdConv), l)
  | none, none =>
    if b then some (bStdConv, pyBytesFn) else some (uStdConv, pyStrFn)
  | some q, some l => some (q, l)

/-! ## Whitespace controller (`__wsscontroller__`)

State `ws`: 0 = normal, 1 = suppress-to-newline (`dnl`), 2 = suppress-all
(`dws`).  `c` is the literal-write hook; it sets `self.ws = 0` on entry
(before any stripping, so the reset happens even when an exception follows)
and then strips according to the saved state.
-/

/-- The fixed whitespace character class `wsc` (newline deliberately
excluded; the `pats[2]` pattern adds it back). -/
def wscList : List Char :=
  ['\x09', '\x0B', '\x0C', '\x0D', '\x1C', '\x1D', '\x1E', '\x1F', '\x20',
   '\u0085', '\u00A0', '\u1680', '\u2000', '\u2001', '\u2002', '\u2003',
   '\u2004', '\u2005', '\u2006', '\u2007', '\u2008', '\u2009', '\u200A',
   '\u200B', '\u2028', '\u2029', '\u202F', '\u205F', '\u3000']

def isWsc (c : Char) : Bool := wscList.contains c

/-- `pats[1].sub('', s)`: strip the leading run of `wsc` characters. -/
def pat1Strip (s : List Char) : List Char := s.dropWhile isWsc

/-- `pats[2].sub('', s)`: strip the leading run of `wsc` or newline. -/
def pat2Strip (s : List Char) : List Char :=
  s.dropWhile (fun c => isWsc c || c = '\n')

/-- `__wsscontroller__.dnl`: enter suppress-to-newline state. -/
def wss_dnl (_ws : Nat) : Nat := 1

/-- `__wsscontroller__.dws`: enter suppress-all state. -/
def wss_dws (_ws : Nat) : Nat := 2

/-- `__wsscontroller__.x`: expression-write hook; resets the state unless the
written value is the `ignore` marker returned by `dnl`/`dws`. -/
def wss_x (ws : Nat) (isIgnoreMarker : Bool) : Nat :=
  if isIgnoreMarker then ws else 0

/-- Output of `__wsscontroller__.c(s)` given the state read at entry.
`none` models an uncaught exception: the `IndexError` from `s[0]` when
`ws == 1` and the stripped text is empty, a `UnicodeDecodeError` for
undecodable bytes, the `TypeError` on non-string input when a pattern is
applied, and the `KeyError` of `self.pats[ws]` for states outside {1,2}. -/
def wssOut (ws : Nat) (v : PyV) : Option PyV :=
  if ws = 0 then some v
  else
    let dec : Option (Bool × List Char) :=
      match v with
      | .vStr s _ => some (false, s)
      | .vBytes b _ => (utf8Decode b).map (fun s => (true, s))
      | _ => none
    match dec with
    | none => none
    | some (wasBytes, s) =>
      if ws = 1 then
        match pat1Strip s with
        | [] => none
        | c :: r =>
          let s2 := if c = '\n' then r else c :: r
          some (if wasBytes then .vBytes (utf8Encode s2) false else .vStr s2 false)
      else if ws = 2 then
        let s2 := pat2Strip s
        some (if wasBytes then .vBytes (utf8Encode s2) false else .vStr s2 false)
      else none

/-- `__wsscontroller__.c`: returns (output-or-exception, new state).
`self.ws = 0` executes before the stripping logic, so the new state is 0
unconditionally. -/
def wss_c (ws : Nat) (v : PyV) : Option PyV × Nat := (wssOut ws v, 0)


/-! ## Theorems: whitespace controller and quoting runtime -/

/-- C8: after every literal-write call `c(s)` the controller state is
`normal` (`ws == 0`), regardless of the prior state and regardless of
whether any suppression was applied — `self.ws = 0` runs unconditionally at
entry, before any branch (even on the exceptional paths). -/
theorem wss_c_always_resets : ∀ (ws : Nat) (v : PyV), (wss_c ws v).2 = 0 :=
  fun _ _ => rfl

/-- C10: under the default conversion and quote functions, `None` maps to
the empty text string, so an expression evaluating to `None` contributes no
output. -/
theorem uStdConv_uStdQuote_none_empty :
    uStdConv PyV.vNone = some (PyV.vStr [] false)
    ∧ uStdQuote PyV.vNone = some (PyV.vStr [] false) :=
  ⟨rfl, rfl⟩

/-- C9: `uStdQuote` XML-escapes ordinary strings (`<` becomes `&lt;`) but
returns `SafeUnicode` values unchanged and `SafeString` values utf8-decoded,
in both cases without XML escaping. -/
theorem uStdQuote_escapes_plain_passes_safe :
    (uStdQuote (PyV.vStr ("<".toList) false)
      = some (PyV.vStr ("&lt;".toList) false))
    ∧ (∀ s, uStdQuote (PyV.vStr s false) = some (PyV.vStr (xmlEscape s) false))
    ∧ (∀ s, uStdQuote (PyV.vStr s true) = some (PyV.vStr s true))
    ∧ (∀ b, uStdQuote (PyV.vBytes b true)
        = (utf8Decode b).map (fun s => PyV.vStr s false))
    ∧ (uStdQuote (PyV.vBytes [60] true) = some (PyV.vStr ("<".toList) false)) := by
  refine ⟨by decide, fun s => by simp [uStdQuote], fun s => by simp [uStdQuote],
    fun b => by simp [uStdQuote], by decide⟩

/-- C1: behaviour of the literal-write hook `c`.  In suppress-to-newline
state it strips the `wsc` class and then one newline if the stripped run
ends exactly at a line break; in suppress-all state it strips the class
together with newlines; in normal state the literal is unchanged.  The final
conjunct exhibits the divergence from that description: a literal that
strips to nothing in state 1 hits the unguarded `s[0]` and raises
`IndexError` instead of writing the emptied literal. -/
theorem wss_c_states_and_indexerror :
    (wss_c 1 (PyV.vStr ("\n    abc".toList) false)
      = (some (PyV.vStr ("    abc".toList) false), 0))
    ∧ (wss_c 1 (PyV.vStr ("  \nabc".toList) false)
      = (some (PyV.vStr ("abc".toList) false), 0))
    ∧ (wss_c 1 (PyV.vStr ("  x".toList) false)
      = (some (PyV.vStr ("x".toList) false), 0))
    ∧ (wss_c 2 (PyV.vStr (" \n \n x".toList) false)
      = (some (PyV.vStr ("x".toList) false), 0))
    ∧ (wss_c 0 (PyV.vStr ("   ".toList) false)
      = (some (PyV.vStr ("   ".toList) false), 0))
    ∧ (wss_c 1 (PyV.vStr ("  ".toList) false) = (none, 0)) := by
  decide

/-- C3: in `__get_conv__`, when exactly one of the pair is supplied the
other is derived from the supplied one's probe on `''`: a byte-returning
probe selects a byte-oriented partner (`asUtf8` resp. `bStdConv`, whose
every successful result is `bytes`), a text-returning probe selects a
text-oriented partner (`asUnicode` resp. `uStdConv`, whose every successful
result is `str`). -/
theorem get_conv_derived_consistent :
    (∀ (q : PyV → Option PyV) (b : Bool) (r : PyV), q emptyPyStr = some r →
      (isBytesInst r = true →
        get_conv (some q) none b = some (q, asUtf8)
        ∧ ∀ v w, asUtf8 v = some w → isBytesInst w = true)
      ∧ (isBytesInst r = false →
        get_conv (some q) none b = some (q, asUnicode)
        ∧ ∀ v w, asUnicode v = some w → isTextInst w = true))
    ∧ (∀ (l : PyV → Option PyV) (b : Bool) (r : PyV), l emptyPyStr = some r →
      (isBytesInst r = true →
        get_conv none (some l) b = some (bStdConv, l)
        ∧ ∀ v w, bStdConv v = some w → isBytesInst w = true)
      ∧ (isBytesInst r = false →
        get_conv none (some l) b = some (uStdConv, l)
        ∧ ∀ v w, uStdConv v = some w → isTextInst w = true)) := by
  constructor
  · intro q b r hq
    constructor
    · intro hb
      refine ⟨by simp [get_conv, hq, hb], ?_⟩
      intro v w hw
      cases v <;> simp [asUtf8] at hw <;> simp [← hw, isBytesInst]
    · intro hb
      refine ⟨by simp [get_conv, hq, hb], ?_⟩
      intro v w hw
      cases v with
      | vStr s f => simp [asUnicode] at hw; simp [← hw, isTextInst]
      | vBytes bb f =>
        simp [asUnicode] at hw
        obtain ⟨s, hs, hw⟩ := hw
        simp [← hw, isTextInst]
      | vNone => simp [asUnicode] at hw
      | vObj sv => simp [asUnicode] at hw
  · intro l b r hl
    constructor
    · intro hb
      refine ⟨by simp [get_conv, hl, hb], ?_⟩
      intro v w hw
      simp [bStdConv, Option.bind_eq_some] at hw
      obtain ⟨u, hu, hw⟩ := hw
      cases u <;> simp [strEncodeUtf8] at hw <;> simp [← hw, isBytesInst]
    · intro hb
      refine ⟨by simp [get_conv, hl, hb], ?_⟩
      intro v w hw
      cases v with
      | vStr s f => simp [uStdConv] at hw; simp [← hw, isTextInst]
      | vBytes bb f =>
        simp [uStdConv] at hw
        obtain ⟨s, hs, hw⟩ := hw
        simp [← hw, isTextInst]
      | vNone => simp [uStdConv] at hw; simp [← hw, isTextInst]
      | vObj sv => simp [uStdConv] at hw; simp [← hw, isTextInst]

/-- Witness for C3: a concrete byte-oriented expression-quote function gets
`asUtf8` as the derived literal-quote, and a concrete text-oriented
literal-quote function gets `uStdConv` as the derived expression-quote. -/
theorem get_conv_derived_consistent_witness :
    get_conv (some (fun _ => some (PyV.vBytes [] false))) none false
      = some ((fun _ => some (PyV.vBytes [] false)), asUtf8)
    ∧ get_conv none (some (fun _ => some (PyV.vStr [] false))) true
      = some (uStdConv, (fun _ => some (PyV.vStr [] false))) :=
  ⟨((get_conv_derived_consistent.1 (fun _ => some (PyV.vBytes [] false)) false
      (PyV.vBytes [] false) rfl).1 rfl).1,
   ((get_conv_derived_consistent.2 (fun _ => some (PyV.vStr [] false)) true
      (PyV.vStr [] false) rfl).2 rfl).1⟩

/-! ## Artifact cache: `getModule`, text-backed path

Models lines 1216–1317 of preppy.py for calls that supply `sourcetext`
(`nosourcefile = 1`, default `importModule = 1`).  `SOURCE_MODULES` is the
in-memory text cache, an association from source text to built module.  The
checksum function (`getMd5`, an MD5 of text plus version salt) and the
compilation pipeline (`PreppyParser` → code object) are abstracted as
parameters `md5` and `compileF`; the caching policy is independent of both.
The result records the module returned, the cache state after the call,
whether the rebuild path ran (the only path that touches disk via
`savePyc`), and the `sourcechecksum` computed for the call.
-/

structure PModule where
  checksum : List Char
  code : Nat
deriving DecidableEq

/-- `SOURCE_MODULES.get(sourcetext, None)`. -/
def slookup : List (List Char × PModule) → List Char → Option PModule
  | [], _ => none
  | (k, m) :: r, s => if k = s then some m else slookup r s

structure GMState where
  sourceModules : List (List Char × PModule)
deriving DecidableEq

structure GMResult where
  module : PModule
  state : GMState
  rebuilt : Bool
  checksum : List Char

/-- `getModule(..., sourcetext=s)`: checksum the text, consult the
in-memory text cache, return the cached module unconditionally on a hit,
otherwise build and record the module. -/
def getModuleText (md5 : List Char → List Char) (compileF : List Char → Nat)
    (st : GMState) (sourcetext : List Char) : GMResult :=
  let sourcechecksum := md5 sourcetext
  match slookup st.sourceModules sourcetext with
  | some m => ⟨m, st, false, sourcechecksum⟩
  | none =>
    let m : PModule := ⟨sourcechecksum, compileF sourcetext⟩
    ⟨m, ⟨(sourcetext, m) :: st.sourceModules⟩, true, sourcechecksum⟩

/-- C2: compiling the same source text twice through the text-backed path
computes the same content checksum both times, and the second call returns
the module cached by the first call unconditionally — no rebuild (hence no
recompilation and no disk write, which happen only on the rebuild path) and
no change to the cache state. -/
theorem getModuleText_second_call_cached :
    ∀ (md5 : List Char → List Char) (compileF : List Char → Nat)
      (st : GMState) (s : List Char),
      (getModuleText md5 compileF (getModuleText md5 compileF st s).state s).checksum
        = (getModuleText md5 compileF st s).checksum
      ∧ (getModuleText md5 compileF (getModuleText md5 compileF st s).state s).module
        = (getModuleText md5 compileF st s).module
      ∧ (getModuleText md5 compileF (getModuleText md5 compileF st s).state s).rebuilt
        = false
      ∧ (getModuleText md5 compileF (getModuleText md5 compileF st s).state s).state
        = (getModuleText md5 compileF st s).state := by
  intro md5 compileF st s
  cases h : slookup st.sourceModules s with
  | some m => simp [getModuleText, h]
  | none => simp [getModuleText, h, slookup]

/-! ## Plain-template `run` preamble

Models the standard prologue of the generated `run` (lines 1023–1048):
resolution of the write target from the `__write__` callback and the
`outputfile` argument.  `write = some w` is a supplied callback (callables
are always truthy); `outputfile` values carry a truthiness flag because the
replacement by `sys.stdout` tests `not outputfile` while the conflict test
is `outputfile is not None`.  The compiled body only executes after the
prologue, so an error here produces no template output (the `ok` payload
carries the output; the `error` case carries none).
-/

inductive RunErr where
  | bothWriteAndOutputfile : RunErr
deriving DecidableEq

structure OutFile where
  truthy : Bool
  id : Nat
deriving DecidableEq

inductive SinkChoice where
  | writeCallback (w : Nat) : SinkChoice
  | file (f : OutFile) : SinkChoice
  | stdout : SinkChoice
deriving DecidableEq

/-- Lines 1036–1045: pick the sink, or raise
`ValueError("do not define both outputfile ... and __write__ ...")`. -/
def resolveWriteTarget (write : Option Nat) (outputfile : Option OutFile) :
    Except RunErr SinkChoice :=
  match write with
  | some w =>
    match outputfile with
    | some _ => .error .bothWriteAndOutputfile
    | none => .ok (.writeCallback w)
  | none =>
    match outputfile with
    | some f => if f.truthy then .ok (.file f) else .ok .stdout
    | none => .ok .stdout

/-- `run(dictionary, __write__, ..., outputfile, ...)`: prologue, then the
body writes its chunks to the resolved sink. -/
def runTemplate (write : Option Nat) (outputfile : Option OutFile)
    (body : List (List Char)) : Except RunErr (SinkChoice × List (List Char)) :=
  match resolveWriteTarget write outputfile with
  | .error e => .error e
  | .ok sink => .ok (sink, body)

/-- C7: supplying both a standalone `__write__` callback and a non-None
`outputfile` makes `run` raise `ValueError`, for every body — the failure is
decided in the prologue, before any template output is produced (the error
result carries no output). -/
theorem runTemplate_rejects_write_and_outputfile :
    ∀ (w : Nat) (f : OutFile) (body : List (List Char)),
      runTemplate (some w) (some f) body = .error .bothWriteAndOutputfile :=
  fun _ _ _ => rfl

/-! ## Lexer (`PreppyParser.__tokenize` and the `_s` keyword regex)

The tag scanner `_pat = re.compile('\\x7b\\x7b\\\\s*|\\x7d\\x7d')` walks the source
splitting it into literal spans and tag spans; each tag body is classified by
matching the alternation `_s` (start-keywords, named-subblock `tdef`,
`def`-introducer, end-group keywords; anything else is an expression).
`_s` is compiled with `re.DOTALL | re.M`, so `$` matches at end-of-text or
before a newline, and `.` matches newlines.  `match`/`case`/`endmatch` are
included, modelling a Python ≥ 3.10 host.  The `\\w` class is modelled by its
ASCII part (template identifiers in scope are ASCII).
-/

/-- Python's `\\s` class for text patterns (also used for `str.strip`). -/
def isPySpace (c : Char) : Bool :=
  ([' ', '\x09', '\x0A', '\x0B', '\x0C', '\x0D', '\x1C', '\x1D', '\x1E', '\x1F',
    '\u0085', '\u00A0', '\u1680', '\u2000', '\u2001', '\u2002', '\u2003', '\u2004',
    '\u2005', '\u2006', '\u2007', '\u2008', '\u2009', '\u200A', '\u2028', '\u2029',
    '\u202F', '\u205F', '\u3000'] : List Char).contains c

/-- `str.strip()`. -/
def pyStrip (s : List Char) : List Char :=
  ((s.dropWhile isPySpace).reverse.dropWhile isPySpace).reverse

/-- Token kinds produced by the lexer (`Token.kind` strings). -/
inductive Kind where
  | kConst | kExpr | kEof
  | kWhile | kIf | kElif | kFor | kContinue | kBreak | kTry | kExcept
  | kRaise | kWith | kImport | kFrom | kAssert | kReturn | kMatch | kCase
  | kTdef | kDef
  | kElse | kScript | kEval | kEndwhile | kEndif | kEndscript | kEndeval
  | kEndfor | kFinally | kEndtry | kEndwith | kEnddef | kEndmatch
deriving DecidableEq

/-- The `start` alternation of `_s`, in source order (`match|case` appended
after `return` on Python ≥ 3.10). -/
def startKws : List (List Char × Kind) :=
  [(['w','h','i','l','e'], .kWhile), (['i','f'], .kIf), (['e','l','i','f'], .kElif),
   (['f','o','r'], .kFor), (['c','o','n','t','i','n','u','e'], .kContinue),
   (['b','r','e','a','k'], .kBreak), (['t','r','y'], .kTry),
   (['e','x','c','e','p','t'], .kExcept), (['r','a','i','s','e'], .kRaise),
   (['w','i','t','h'], .kWith), (['i','m','p','o','r','t'], .kImport),
   (['f','r','o','m'], .kFrom), (['a','s','s','e','r','t'], .kAssert),
   (['r','e','t','u','r','n'], .kReturn), (['m','a','t','c','h'], .kMatch),
   (['c','a','s','e'], .kCase)]

/-- Keywords allowed with an empty `startend` group
(`continue|break|try|except|return|raise`). -/
def noSpaceOk : List Kind :=
  [.kContinue, .kBreak, .kTry, .kExcept, .kReturn, .kRaise]

/-- `$` in MULTILINE mode: matches at end-of-text or just before a newline. -/
def dollarMEnd : List Char → Bool
  | [] => true
  | c :: _ => c = '\n'

/-- Does `\\s*$` (MULTILINE) match the whole remainder from here? -/
def wsStarDollar : List Char → Bool
  | [] => true
  | c :: r => if c = '\n' then true else if isPySpace c then wsStarDollar r else false

/-- Boolean list-prefix test (the anchoring of each `_s` alternative). -/
def lPrefix : List Char → List Char → Bool
  | [], _ => true
  | _ :: _, [] => false
  | a :: as, b :: bs => a = b && lPrefix as bs

theorem lPrefix_iff (s t : List Char) : lPrefix s t = true ↔ s <+: t := by
  induction s generalizing t with
  | nil => simp [lPrefix]
  | cons a as ih =>
    cases t with
    | nil => simp [lPrefix]
    | cons b bs => simp [lPrefix, List.cons_prefix_cons, ih, And.comm]

/-- Scan the start-keyword alternatives in order: a keyword matches when it
prefixes the tag body and is followed by whitespace (`\\s+`) or nothing
(`$`, an empty `startend` group, flagged `true`). -/
def startScanGo : List (List Char × Kind) → List Char → Option (List Char × Kind × Bool)
  | [], _ => none
  | (kw, k) :: rest, text =>
    if lPrefix kw text then
      match text.drop kw.length with
      | [] => some (kw, k, true)
      | c :: _ => if isPySpace c then some (kw, k, false) else startScanGo rest text
    else startScanGo rest text

def startScan (text : List Char) : Option (List Char × Kind × Bool) :=
  startScanGo startKws text

/-- `[_a-zA-Z]`. -/
def tdefLetter (c : Char) : Bool := c = '_' || c.isAlpha

/-- ASCII part of `\\w`. -/
def isPyWord (c : Char) : Bool := c = '_' || c.isAlpha || c.isDigit

/-- `.*\\)\\s*$` searched from here: some `)` whose remainder matches
`\\s*$`. -/
def anyClose : List Char → Bool
  | [] => false
  | c :: r => (c = ')' && wsStarDollar r) || anyClose r

/-- `\\(.*\\)\\s*$` at this position. -/
def parenThenClose : List Char → Bool
  | [] => false
  | c :: r => c = '(' && anyClose r

/-- `\\s*\\(.*\\)\\s*$`. -/
def tdefAfterWord : List Char → Bool
  | [] => false
  | c :: r => parenThenClose (c :: r) || (isPySpace c && tdefAfterWord r)

/-- `\\w*\\s*\\(.*\\)\\s*$` (the `tdefend` group). -/
def tdefWordLoop : List Char → Bool
  | [] => false
  | c :: r => tdefAfterWord (c :: r) || (isPyWord c && tdefWordLoop r)

/-- `\\s*[_a-zA-Z]` then the `tdefend` group (the part of the `tdef`
alternative after the literal `def`). -/
def tdefAfterDef : List Char → Bool
  | [] => false
  | c :: r => (tdefLetter c && tdefWordLoop r) || (isPySpace c && tdefAfterDef r)

/-- The `tdef` alternative `def\\s*[_a-zA-Z]\\w*\\s*\\(.*\\)\\s*$`. -/
def tdefMatch : List Char → Bool
  | c1 :: c2 :: c3 :: rest =>
    c1 = 'd' && c2 = 'e' && c3 = 'f' && tdefAfterDef rest
  | _ => false

/-- The `def` alternative `def\\s*(\\(|$)`: `some true` when the `defend`
group is `(` (a real introducer), `some false` when it matched `$` (an empty
`defend`, reported as `Bad def`), `none` when the alternative fails. -/
def defAlt : List Char → Option Bool
  | c1 :: c2 :: c3 :: rest =>
    if c1 = 'd' && c2 = 'e' && c3 = 'f' then
      match rest.dropWhile isPySpace with
      | '(' :: _ => some true
      | [] => some false
      | _ =>
        if (rest.takeWhile isPySpace).contains '\n' then some false else none
    else none
  | _ => none

/-- The `end` alternation of `_s`, in source order (`endmatch` appended on
Python ≥ 3.10). -/
def endKws : List (List Char × Kind) :=
  [(['e','l','s','e'], .kElse), (['s','c','r','i','p','t'], .kScript),
   (['e','v','a','l'], .kEval), (['e','n','d','w','h','i','l','e'], .kEndwhile),
   (['e','n','d','i','f'], .kEndif),
   (['e','n','d','s','c','r','i','p','t'], .kEndscript),
   (['e','n','d','e','v','a','l'], .kEndeval),
   (['e','n','d','f','o','r'], .kEndfor),
   (['f','i','n','a','l','l','y'], .kFinally),
   (['e','n','d','t','r','y'], .kEndtry),
   (['e','n','d','w','i','t','h'], .kEndwith),
   (['e','n','d','d','e','f'], .kEnddef),
   (['e','n','d','m','a','t','c','h'], .kEndmatch)]

/-- Scan the end-keyword alternatives: a keyword matches when it prefixes the
body; the trailing `(?:\\s*$|(?P<endend>.+$))` then always matches, capturing
`endend` exactly when `\\s*$` does not. -/
def endScanGo : List (List Char × Kind) → List Char →
    Option (List Char × Kind × Option (List Char))
  | [], _ => none
  | (kw, k) :: rest, text =>
    if lPrefix kw text then
      some (kw, k,
        if wsStarDollar (text.drop kw.length) then none
        else some (text.drop kw.length))
    else endScanGo rest text

def endScan (text : List Char) : Option (List Char × Kind × Option (List Char)) :=
  endScanGo endKws text

inductive LexErr where
  | unexpectedOpen : LexErr
  | unterminated : LexErr
  | badKeyword (kw : List Char) : LexErr
  | onlyOneDef : LexErr
  | defMustComeFirst : LexErr
deriving DecidableEq

deriving instance DecidableEq for Except

/-- Classification of one tag body against `_s` (lines 481–509), minus the
`def`-uniqueness bookkeeping which lives in the tokenizer state. -/
def classify (text : List Char) : Except LexErr Kind :=
  match startScan text with
  | some (kw, k, startendEmpty) =>
    if startendEmpty && !(noSpaceOk.contains k) then .error (.badKeyword kw)
    else .ok k
  | none =>
    if tdefMatch text then .ok .kTdef
    else
      match defAlt text with
      | some true => .ok .kDef
      | some false => .error (.badKeyword ("def".toList))
      | none =>
        match endScan text with
        | some (kw, k, ee) =>
          match ee with
          | some e =>
            if k ≠ Kind.kElse ∧ pyStrip e ≠ (":".toList) then
              .error (.badKeyword kw)
            else .ok k
          | none => .ok k
        | none => .ok .kExpr

structure LTok where
  kind : Kind
  body : List Char
deriving DecidableEq

/-- The tokenizer loop (`__tokenize`).  `inTag` is the binary scanner state;
`acc` the span being accumulated; `ds` the `_defSeen` flag (0 initially, 1
after a `def` introducer, −1 once any other tag has been finalized first).
A tag body is the span after the `\x7b\x7b\\s*` delimiter match (leading
whitespace consumed); a token is emitted only when that body is non-empty,
but `_defSeen` is updated for empty tags too. -/
def tokGo : List Char → Bool → List Char → Int → List LTok → Except LexErr (List LTok)
  | [], inTag, acc, _, toks =>
    if inTag then .error .unterminated
    else .ok (toks ++ (if acc.isEmpty then [] else [⟨.kConst, acc⟩]) ++ [⟨.kEof, []⟩])
  | [c], inTag, acc, ds, toks => tokGo [] inTag (acc ++ [c]) ds toks
  | c1 :: c2 :: rest, inTag, acc, ds, toks =>
    if c1 = '\x7b' ∧ c2 = '\x7b' then
      if inTag then .error .unexpectedOpen
      else tokGo rest true [] ds (toks ++ if acc.isEmpty then [] else [⟨.kConst, acc⟩])
    else if c1 = '\x7d' ∧ c2 = '\x7d' then
      if inTag then
        if (acc.dropWhile isPySpace).isEmpty then
          tokGo rest false [] (if ds = 0 then -1 else ds) toks
        else
          match classify (acc.dropWhile isPySpace) with
          | .error e => .error e
          | .ok k =>
            if k = .kDef then
              if ds = 0 then
                tokGo rest false [] 1 (toks ++ [⟨k, acc.dropWhile isPySpace⟩])
              else if ds > 0 then .error .onlyOneDef
              else .error .defMustComeFirst
            else
              tokGo rest false [] (if ds = 0 then -1 else ds)
                (toks ++ [⟨k, acc.dropWhile isPySpace⟩])
      else tokGo rest false (acc ++ ['\x7d', '\x7d']) ds toks
    else tokGo (c2 :: rest) inTag (acc ++ [c1]) ds toks

/-- `__tokenize` on a whole template source. -/
def pyTokenize (text : List Char) : Except LexErr (List LTok) :=
  tokGo text false [] 0 []

example : classify ("def(a)".toList) = .ok .kDef := by decide
example : classify ("def f(a)".toList) = .ok .kTdef := by decide
example : classify ("def".toList) = .error (.badKeyword ("def".toList)) := by decide
example : classify ("else x".toList) = .ok .kElse := by decide
example : classify ("endif junk".toList)
  = .error (.badKeyword ("endif".toList)) := by decide
example : classify ("endif :".toList) = .ok .kEndif := by decide
example : classify ("endif \n junk".toList) = .ok .kEndif := by decide
example : classify ("while".toList) = .error (.badKeyword ("while".toList)) := by decide
example : classify ("break".toList) = .ok .kBreak := by decide
example : classify ("return 1".toList) = .ok .kReturn := by decide
example : classify ("return(1)".toList) = .ok .kExpr := by decide
example : classify ("x+1".toList) = .ok .kExpr := by decide
example : classify ("iffy".toList) = .ok .kExpr := by decide
example : pyTokenize ("a\x7d\x7db\x7b\x7bx\x7d\x7d".toList)
  = .ok [⟨.kConst, ("a\x7d\x7db".toList)⟩, ⟨.kExpr, ("x".toList)⟩, ⟨.kEof, []⟩] := by decide
example : pyTokenize ("\x7b\x7bdef(a)\x7d\x7d\x7b\x7bdef(b)\x7d\x7d".toList)
  = .error .onlyOneDef := by decide
example : pyTokenize ("\x7b\x7bx\x7d\x7d\x7b\x7bdef(a)\x7d\x7d".toList)
  = .error .defMustComeFirst := by decide
example : pyTokenize ("\x7b\x7b\x7d\x7d\x7b\x7bdef(a)\x7d\x7d".toList)
  = .error .defMustComeFirst := by decide
example : pyTokenize ("hello \x7b\x7bdef(a)\x7d\x7d".toList)
  = .ok [⟨.kConst, ("hello ".toList)⟩, ⟨.kDef, ("def(a)".toList)⟩, ⟨.kEof, []⟩] := by decide
example : pyTokenize ("\x7b\x7b \x7b\x7b".toList) = .error .unexpectedOpen := by decide
example : pyTokenize ("\x7b\x7bx".toList) = .error .unterminated := by decide



/-! ## Theorems: lexer def-uniqueness (C5) and end-keyword trailing text (C6) -/

theorem classify_end_generic (kw : List Char) (k : Kind) (r : List Char)
    (hne : k ≠ Kind.kElse)
    (hstart : startScan (kw ++ r) = none)
    (htdef : tdefMatch (kw ++ r) = false)
    (hdef : defAlt (kw ++ r) = none)
    (hend : endScan (kw ++ r)
      = some (kw, k, if wsStarDollar r then none else some r)) :
    classify (kw ++ r)
      = if wsStarDollar r = true ∨ pyStrip r = (":".toList) then Except.ok k
        else Except.error (LexErr.badKeyword kw) := by
  rw [classify, hstart, htdef, hdef, hend]
  by_cases hw : wsStarDollar r = true
  · simp [hw]
  · by_cases hc : pyStrip r = (":".toList)
    · simp [hw, hc]
    · simp [hw, hc, hne]

/-- C6 (amended): for a tag body consisting of an end-group keyword followed
by any remainder, the keywords other than `else` fail lexing with
`Bad <keyword>` exactly when the remainder is captured as extra text (it is
not optional whitespace running to end-of-text or to a line break — `_s` is
MULTILINE, so such remainders are not "extra") and does not strip to
exactly `:`; a tag starting with `else` is accepted by the lexer whatever
follows, because the `ee.strip() != ':'` check at line 492 is guarded by
`t != 'else'`. -/
theorem classify_endgroup_extra_text :
    (∀ (kw : List Char) (k : Kind) (r : List Char),
      (kw, k) ∈ endKws → k ≠ Kind.kElse →
      classify (kw ++ r)
        = if wsStarDollar r = true ∨ pyStrip r = (":".toList) then Except.ok k
          else Except.error (LexErr.badKeyword kw))
    ∧ (∀ r : List Char, classify (['e','l','s','e'] ++ r) = Except.ok Kind.kElse) := by
  constructor
  · intro kw k r hmem hne
    fin_cases hmem
    · exact absurd rfl hne
    all_goals
      (refine classify_end_generic _ _ _ hne ?_ ?_ ?_ ?_ <;>
        simp [startScan, startScanGo, startKws, lPrefix, tdefMatch, defAlt,
          endScan, endScanGo, endKws])
  · intro r
    by_cases hw : wsStarDollar r = true <;>
      simp [classify, startScan, startScanGo, startKws, lPrefix, tdefMatch,
        defAlt, endScan, endScanGo, endKws, hw]

/-- Witness for C6: `endif junk` is rejected with `Bad endif`, while
`endif :` is accepted, both obtained from the amended rule. -/
theorem classify_endgroup_extra_text_witness :
    classify (['e','n','d','i','f'] ++ (' ' :: 'j' :: 'u' :: 'n' :: 'k' :: []))
      = Except.error (LexErr.badKeyword ['e','n','d','i','f'])
    ∧ classify (['e','n','d','i','f'] ++ (' ' :: ':' :: [])) = Except.ok Kind.kEndif := by
  constructor
  · have h := classify_endgroup_extra_text.1 ['e','n','d','i','f'] Kind.kEndif
      (' ' :: 'j' :: 'u' :: 'n' :: 'k' :: []) (by decide) (by decide)
    rw [h]
    decide
  · have h := classify_endgroup_extra_text.1 ['e','n','d','i','f'] Kind.kEndif
      (' ' :: ':' :: []) (by decide) (by decide)
    rw [h]
    decide

/-- C6 counterexample: the tag `{{else x}}` — an end-group keyword followed
by extra text that does not strip to `:` — lexes successfully as an `else`
token instead of failing: the trailing-text check exempts `else`. -/
theorem tokenize_else_extra_text_accepted :
    pyTokenize ("\x7b\x7belse x\x7d\x7d".toList)
      = .ok [⟨Kind.kElse, ("else x".toList)⟩, ⟨Kind.kEof, []⟩] := by decide

/-- Token kinds other than literal text and end-of-file. -/
def isDirective : Kind → Bool
  | .kConst => false
  | .kEof => false
  | _ => true

/-- The directive kinds of a token list, in order. -/
def dirKinds (toks : List LTok) : List Kind :=
  (toks.map LTok.kind).filter isDirective

/-- Invariant tying the `_defSeen` flag to the directive tokens emitted so
far: 0 = no tag finalized yet, positive = the first finalized tag was the
`def` introducer and no further one occurred, negative = tags were finalized
and none was (or may later be) a `def` introducer. -/
def dsInv (ds : Int) (D : List Kind) : Prop :=
  (ds = 0 → D = []) ∧
  (0 < ds → ∃ rest, D = Kind.kDef :: rest ∧ Kind.kDef ∉ rest) ∧
  (ds < 0 → Kind.kDef ∉ D)

theorem dsInv_nil_step (ds : Int) (D : List Kind) (h : dsInv ds D) :
    dsInv (if ds = 0 then -1 else ds) D := by
  by_cases h0 : ds = 0
  · subst h0
    have hD := h.1 rfl
    subst hD
    refine ⟨fun hc => by omega, fun hc => by omega, fun _ => by simp⟩
  · simpa [h0] using h

theorem dsInv_dir_step (ds : Int) (D : List Kind) (k : Kind)
    (hk : k ≠ Kind.kDef) (h : dsInv ds D) :
    dsInv (if ds = 0 then -1 else ds) (D ++ [k]) := by
  by_cases h0 : ds = 0
  · subst h0
    have hD := h.1 rfl
    subst hD
    refine ⟨fun hc => by omega, fun hc => by omega, fun _ => ?_⟩
    simpa using fun hc => hk hc.symm
  · simp only [h0, if_neg, ite_false]
    refine ⟨fun hc => absurd hc h0, fun hpos => ?_, fun hneg => ?_⟩
    · obtain ⟨rest, hD, hmem⟩ := h.2.1 hpos
      refine ⟨rest ++ [k], by rw [hD]; simp, ?_⟩
      simp only [List.mem_append, List.mem_singleton]
      rintro (hc | hc)
      · exact hmem hc
      · exact hk hc.symm
    · have hm := h.2.2 hneg
      simp only [List.mem_append, List.mem_singleton]
      rintro (hc | hc)
      · exact hm hc
      · exact hk hc.symm

theorem dsInv_def_step (D : List Kind) (h : dsInv 0 D) :
    dsInv 1 (D ++ [Kind.kDef]) := by
  have hD := h.1 rfl
  subst hD
  exact ⟨fun hc => by omega, fun _ => ⟨[], rfl, by simp⟩, fun hc => by omega⟩

theorem dsInv_conclusion (ds : Int) (D : List Kind) (h : dsInv ds D) :
    Kind.kDef ∉ D.tail := by
  rcases lt_trichotomy ds 0 with hlt | heq | hgt
  · have hm := h.2.2 hlt
    exact fun hmem => hm (List.mem_of_mem_tail hmem)
  · rw [h.1 heq]
    simp
  · obtain ⟨rest, hD, hmem⟩ := h.2.1 hgt
    rw [hD]
    simpa using hmem

theorem startScanGo_mem (L : List (List Char × Kind)) (text kw : List Char)
    (k : Kind) (b : Bool) (h : startScanGo L text = some (kw, k, b)) :
    (kw, k) ∈ L := by
  induction L with
  | nil => simp [startScanGo] at h
  | cons p rest ih =>
    obtain ⟨kw1, k1⟩ := p
    rw [startScanGo] at h
    split at h
    · split at h
      · simp only [Option.some.injEq, Prod.mk.injEq] at h
        obtain ⟨rfl, rfl, rfl⟩ := h
        exact List.mem_cons_self _ _
      · split at h
        · simp only [Option.some.injEq, Prod.mk.injEq] at h
          obtain ⟨rfl, rfl, rfl⟩ := h
          exact List.mem_cons_self _ _
        · exact List.mem_cons_of_mem _ (ih h)
    · exact List.mem_cons_of_mem _ (ih h)

theorem endScanGo_mem (L : List (List Char × Kind)) (text kw : List Char)
    (k : Kind) (ee : Option (List Char))
    (h : endScanGo L text = some (kw, k, ee)) : (kw, k) ∈ L := by
  induction L with
  | nil => simp [endScanGo] at h
  | cons p rest ih =>
    obtain ⟨kw1, k1⟩ := p
    rw [endScanGo] at h
    split at h
    · simp only [Option.some.injEq, Prod.mk.injEq] at h
      obtain ⟨rfl, rfl, rfl⟩ := h
      exact List.mem_cons_self _ _
    · exact List.mem_cons_of_mem _ (ih h)

/-- Everything `classify` accepts is a directive kind (never `const`/`eof`). -/
theorem classify_ok_directive (text : List Char) (k : Kind)
    (h : classify text = .ok k) : isDirective k = true := by
  rw [classify] at h
  split at h
  · rename_i kw k1 se heq
    split at h
    · exact absurd h (by simp)
    · simp only [Except.ok.injEq] at h
      subst h
      have hmem := startScanGo_mem _ _ _ _ _ heq
      fin_cases hmem <;> decide
  · split at h
    · simp only [Except.ok.injEq] at h
      subst h
      decide
    · split at h
      · simp only [Except.ok.injEq] at h
        subst h
        decide
      · exact absurd h (by simp)
      · split at h
        · rename_i kw k1 ee heq
          split at h
          · split at h
            · exact absurd h (by simp)
            · simp only [Except.ok.injEq] at h
              subst h
              have hmem := endScanGo_mem _ _ _ _ _ heq
              fin_cases hmem <;> decide
          · simp only [Except.ok.injEq] at h
            subst h
            have hmem := endScanGo_mem _ _ _ _ _ heq
            fin_cases hmem <;> decide
        · simp only [Except.ok.injEq] at h
          subst h
          decide

theorem dirKinds_append (a b : List LTok) :
    dirKinds (a ++ b) = dirKinds a ++ dirKinds b := by
  simp [dirKinds]

theorem dirKinds_constOpt (toks : List LTok) (acc : List Char) :
    dirKinds (toks ++ if acc.isEmpty = true then [] else [⟨Kind.kConst, acc⟩])
      = dirKinds toks := by
  by_cases h : acc.isEmpty <;> simp [h, dirKinds, isDirective]

theorem dirKinds_dir (toks : List LTok) (k : Kind) (body : List Char)
    (h : isDirective k = true) :
    dirKinds (toks ++ [⟨k, body⟩]) = dirKinds toks ++ [k] := by
  simp [dirKinds, h]

/-- Lexer invariant: a successful tokenize run never emits a `def` introducer
after any other directive, so at most one `def` token exists and it is the
first directive. -/
theorem tokGo_defs (out : List LTok) :
    ∀ (cs : List Char) (inTag : Bool) (acc : List Char) (ds : Int) (toks : List LTok),
    tokGo cs inTag acc ds toks = .ok out → dsInv ds (dirKinds toks) →
    Kind.kDef ∉ (dirKinds out).tail := by
  intro cs inTag acc ds toks
  induction cs, inTag, acc, ds, toks using tokGo.induct with
  | case1 acc x toks =>
    intro hok hinv
    rw [tokGo] at hok
    simp at hok
  | case2 inTag acc x toks hTag =>
    intro hok hinv
    rw [tokGo] at hok
    rw [if_neg hTag] at hok
    simp only [Except.ok.injEq] at hok
    subst hok
    rw [dirKinds_append, dirKinds_append]
    have h1 : dirKinds (if acc.isEmpty = true then [] else [⟨Kind.kConst, acc⟩]) = [] := by
      by_cases hacc : acc.isEmpty <;> simp [hacc, dirKinds, isDirective]
    have h2 : dirKinds [(⟨Kind.kEof, []⟩ : LTok)] = [] := rfl
    rw [h1, h2]
    simp only [List.append_nil]
    exact dsInv_conclusion _ _ hinv
  | case3 c inTag acc ds toks ih =>
    intro hok hinv
    rw [tokGo] at hok
    exact ih hok hinv
  | case4 c1 c2 rest acc ds toks h =>
    intro hok hinv
    obtain ⟨rfl, rfl⟩ := h
    rw [tokGo] at hok
    rw [if_pos ⟨rfl, rfl⟩] at hok
    rw [if_pos rfl] at hok
    simp at hok
  | case5 c1 c2 rest inTag acc ds toks h hTag ih =>
    intro hok hinv
    obtain ⟨rfl, rfl⟩ := h
    rw [tokGo] at hok
    rw [if_pos ⟨rfl, rfl⟩] at hok
    rw [if_neg hTag] at hok
    exact ih hok (by rw [dirKinds_constOpt]; exact hinv)
  | case6 c1 c2 rest acc ds toks h1 h2 hempty ih =>
    intro hok hinv
    obtain ⟨rfl, rfl⟩ := h2
    rw [tokGo] at hok
    rw [if_neg h1] at hok
    rw [if_pos ⟨rfl, rfl⟩] at hok
    rw [if_pos rfl] at hok
    rw [if_pos hempty] at hok
    exact ih hok (dsInv_nil_step _ _ hinv)
  | case7 c1 c2 rest acc ds toks h1 h2 hempty e herr =>
    intro hok hinv
    obtain ⟨rfl, rfl⟩ := h2
    rw [tokGo] at hok
    rw [if_neg h1] at hok
    rw [if_pos ⟨rfl, rfl⟩] at hok
    rw [if_pos rfl] at hok
    rw [if_neg hempty] at hok
    simp only [herr] at hok
    exact absurd hok (by simp)
  | case8 c1 c2 rest acc toks h1 h2 hempty hclass ih =>
    intro hok hinv
    obtain ⟨rfl, rfl⟩ := h2
    rw [tokGo] at hok
    rw [if_neg h1] at hok
    rw [if_pos ⟨rfl, rfl⟩] at hok
    rw [if_pos rfl] at hok
    rw [if_neg hempty] at hok
    simp only [hclass] at hok
    rw [if_pos trivial] at hok
    rw [if_pos trivial] at hok
    refine ih hok ?_
    rw [dirKinds_dir _ _ _ (by decide)]
    exact dsInv_def_step _ hinv
  | case9 c1 c2 rest acc ds toks h1 h2 hempty hds hpos hclass =>
    intro hok hinv
    obtain ⟨rfl, rfl⟩ := h2
    rw [tokGo] at hok
    rw [if_neg h1] at hok
    rw [if_pos ⟨rfl, rfl⟩] at hok
    rw [if_pos rfl] at hok
    rw [if_neg hempty] at hok
    simp only [hclass] at hok
    rw [if_pos trivial] at hok
    rw [if_neg hds] at hok
    rw [if_pos hpos] at hok
    exact absurd hok (by simp)
  | case10 c1 c2 rest acc ds toks h1 h2 hempty hds hpos hclass =>
    intro hok hinv
    obtain ⟨rfl, rfl⟩ := h2
    rw [tokGo] at hok
    rw [if_neg h1] at hok
    rw [if_pos ⟨rfl, rfl⟩] at hok
    rw [if_pos rfl] at hok
    rw [if_neg hempty] at hok
    simp only [hclass] at hok
    rw [if_pos trivial] at hok
    rw [if_neg hds] at hok
    rw [if_neg hpos] at hok
    exact absurd hok (by simp)
  | case11 c1 c2 rest acc ds toks h1 h2 hempty k hclass hkne ih =>
    intro hok hinv
    obtain ⟨rfl, rfl⟩ := h2
    rw [tokGo] at hok
    rw [if_neg h1] at hok
    rw [if_pos ⟨rfl, rfl⟩] at hok
    rw [if_pos rfl] at hok
    rw [if_neg hempty] at hok
    simp only [hclass] at hok
    rw [if_neg hkne] at hok
    refine ih hok ?_
    rw [dirKinds_dir _ _ _ (classify_ok_directive _ _ hclass)]
    exact dsInv_dir_step _ _ _ hkne hinv
  | case12 c1 c2 rest inTag acc ds toks h1 h2 hTag ih =>
    intro hok hinv
    obtain ⟨rfl, rfl⟩ := h2
    rw [tokGo] at hok
    rw [if_neg h1] at hok
    rw [if_pos ⟨rfl, rfl⟩] at hok
    rw [if_neg hTag] at hok
    exact ih hok hinv
  | case13 c1 c2 rest inTag acc ds toks h1 h2 ih =>
    intro hok hinv
    rw [tokGo] at hok
    rw [if_neg h1] at hok
    rw [if_neg h2] at hok
    exact ih hok hinv

/-- C5: the lexer accepts at most one `def` parameter-signature introducer
and only as the first directive of the template (in every successful
tokenize run no `def` token follows another directive token), a second
introducer fails with `Only one def may be used`, and an introducer that is
not the first directive fails with `def must come first`. -/
theorem tokenize_single_first_def :
    (∀ (text : List Char) (toks : List LTok), pyTokenize text = .ok toks →
      Kind.kDef ∉ (dirKinds toks).tail)
    ∧ pyTokenize ("\x7b\x7bdef(a)\x7d\x7d\x7b\x7bdef(b)\x7d\x7d".toList)
        = .error .onlyOneDef
    ∧ pyTokenize ("\x7b\x7bx\x7d\x7d\x7b\x7bdef(a)\x7d\x7d".toList)
        = .error .defMustComeFirst := by
  refine ⟨?_, by decide, by decide⟩
  intro text toks hok
  exact tokGo_defs toks text false [] 0 [] hok
    ⟨fun _ => rfl, fun hc => absurd hc (lt_irrefl 0), fun hc => absurd hc (lt_irrefl 0)⟩

/-- Witness for C5: a concrete template whose `def` introducer is the first
directive tokenizes successfully, and indeed no `def` occurs after another
directive. -/
theorem tokenize_single_first_def_witness :
    Kind.kDef ∉ (dirKinds [⟨Kind.kDef, ("def(a)".toList)⟩,
      ⟨Kind.kConst, ("text".toList)⟩, ⟨Kind.kExpr, ("x".toList)⟩,
      ⟨Kind.kEof, []⟩]).tail :=
  tokenize_single_first_def.1
    ("\x7b\x7bdef(a)\x7d\x7dtext\x7b\x7bx\x7d\x7d".toList) _ (by decide)



/-! ## Parser (`PreppyParser.__preppy` and the directive handlers)

The parser consumes the token stream left to right, dispatching on each
token's classified kind; body parsing recurses with a follower set and pops
(or leaves, `pop=False`) the terminating follower token.  The model tracks
exactly the validation state the source tracks — the `__inWhile`/`__inFor`
counters, the `__inTdef` save-stack, and the `__inMatch`/`__inCase`
counters — and reproduces each handler's checks and token consumption.
What it does not reproduce is the construction of the host-language AST:
directive bodies handed to the ambient grammar (`ast.parse` inside
`__rparse`/`__iparse`) are assumed to be syntactically valid ambient code,
which is the spec's stated scope boundary; acceptance is modelled exactly
for everything the preppy layer itself checks.  Recursion is fuel-indexed;
`outOfFuel` is a model artefact that never fires for the fuel budget
`parseTokens` supplies.
-/

/-- `str.replace(old, new)` for a non-empty `old` (the `UNESCAPES` patterns
are all non-empty; an empty `old` leaves the string unchanged here).  The
`Nat` argument is recursion fuel, always at least the remaining length. -/
def replaceListGo (old new : List Char) : Nat → List Char → List Char
  | 0, s => s
  | _ + 1, [] => []
  | fuel + 1, c :: r =>
    if old ≠ [] ∧ lPrefix old (c :: r) = true then
      new ++ replaceListGo old new fuel ((c :: r).drop old.length)
    else c :: replaceListGo old new fuel r

def replaceList (old new s : List Char) : List Char :=
  replaceListGo old new s.length s

/-- `unescape`: the fixed ordered replacements
`{${ -> {{`, `}$} -> }}`, `$$ -> $`. -/
def pyUnescape (s : List Char) : List Char :=
  replaceList ("$$".toList) ("$".toList)
    (replaceList ("\x7d$\x7d".toList) ("\x7d\x7d".toList)
      (replaceList ("\x7b$\x7b".toList) ("\x7b\x7b".toList) s))

/-- `__tokenText()` with default arguments (strip, then unescape). -/
def tokenTextS (t : LTok) : List Char := pyUnescape (pyStrip t.body)

/-- `__tokenText(colonRemove=True)`: strip, drop one trailing `:`, then
unescape. -/
def tokenTextCR (t : LTok) : List Char :=
  let x := pyStrip t.body
  pyUnescape (if x.getLast? = some ':' then x.dropLast else x)

structure PState where
  toks : List LTok
  inWhile : Nat
  inFor : Nat
  inMatch : Nat
  inCase : Nat
  inTdef : List (Nat × Nat)
deriving DecidableEq

inductive PErr where
  | serror (msg : List Char) : PErr
  | endExpected (k : Kind) : PErr
  | attrError : PErr
  | outOfFuel : PErr
deriving DecidableEq

/-- `'%s statement outside while or for loop' % stmt` (also the message the
source uses for `return`, despite its meaning). -/
def outsideLoopMsg (stmt : List Char) : List Char :=
  stmt ++ (" statement outside while or for loop".toList)

/-- `'invalid %s statement' % stmt`. -/
def invalidStmtMsg (stmt : List Char) : List Char :=
  ("invalid ".toList) ++ stmt ++ (" statement".toList)

def invalidSyntaxMsg : List Char := "invalid syntax".toList

/-- `'unexpected text, %r, in start of match'`. -/
def matchTextMsg : List Char := "unexpected text in start of match".toList

/-- The whitespace-only literal skip after a `match` header (lines 732–738):
consume `const` tokens whose raw text strips to nothing; any other text is a
`ParseError`. -/
def pMatchSkip : List LTok → Except PErr (List LTok)
  | [] => .ok []
  | t :: rest =>
    if t.kind = Kind.kConst then
      if pyStrip t.body ≠ [] then .error (.serror matchTextMsg)
      else pMatchSkip rest
    else .ok (t :: rest)

mutual

/-- `__preppy(funcs, followers, pop)`: the statement-sequence loop.
Returns the state after the terminating follower (popped when `pop`) and
the follower kind that ended the loop. -/
def pPreppy (fuel : Nat) (st : PState) (followers : List Kind) (pop : Bool) :
    Except PErr (PState × Kind) :=
  match fuel with
  | 0 => .error .outOfFuel
  | fuel + 1 =>
    match st.toks with
    | [] => .error .outOfFuel
    | t :: rest =>
      if t.kind ∈ followers then
        if pop then .ok ({ st with toks := rest }, t.kind)
        else .ok (st, t.kind)
      else
        match t.kind with
        | .kConst => pPreppy fuel { st with toks := rest } followers pop
        | .kExpr => pPreppy fuel { st with toks := rest } followers pop
        | .kRaise => pPreppy fuel { st with toks := rest } followers pop
        | .kImport => pPreppy fuel { st with toks := rest } followers pop
        | .kFrom => pPreppy fuel { st with toks := rest } followers pop
        | .kAssert => pPreppy fuel { st with toks := rest } followers pop
        | .kDef => pPreppy fuel { st with toks := rest } followers pop
        | .kBreak =>
          if tokenTextS t ≠ ("break".toList) then
            .error (.serror (invalidStmtMsg ("break".toList)))
          else if st.inWhile = 0 ∧ st.inFor = 0 then
            .error (.serror (outsideLoopMsg ("break".toList)))
          else pPreppy fuel { st with toks := rest } followers pop
        | .kContinue =>
          if tokenTextS t ≠ ("continue".toList) then
            .error (.serror (invalidStmtMsg ("continue".toList)))
          else if st.inWhile = 0 ∧ st.inFor = 0 then
            .error (.serror (outsideLoopMsg ("continue".toList)))
          else pPreppy fuel { st with toks := rest } followers pop
        | .kReturn =>
          if st.inTdef = [] then
            .error (.serror (outsideLoopMsg ("return".toList)))
          else pPreppy fuel { st with toks := rest } followers pop
        | .kTdef =>
          let st1 : PState := { st with toks := rest, inWhile := 0, inFor := 0, inTdef := (st.inWhile, st.inFor) :: st.inTdef }
          match pPreppy fuel st1 [.kEnddef] true with
          | .error e => .error e
          | .ok (st2, _) =>
            match st2.inTdef with
            | [] => .error .attrError
            | saved :: restT =>
              pPreppy fuel { st2 with inWhile := saved.1, inFor := saved.2, inTdef := restT } followers pop
        | .kWhile =>
          let st1 : PState := { st with toks := rest, inWhile := st.inWhile + 1 }
          match pPreppy fuel st1 [.kEndwhile, .kElse] true with
          | .error e => .error e
          | .ok (st2, term) =>
            if term = .kElse then
              match pPreppy fuel st2 [.kEndwhile] true with
              | .error e => .error e
              | .ok (st3, _) =>
                pPreppy fuel { st3 with inWhile := st3.inWhile - 1 } followers pop
            else pPreppy fuel { st2 with inWhile := st2.inWhile - 1 } followers pop
        | .kFor =>
          let st1 : PState := { st with toks := rest, inFor := st.inFor + 1 }
          match pPreppy fuel st1 [.kEndfor, .kElse] true with
          | .error e => .error e
          | .ok (st2, term) =>
            if term = .kElse then
              match pPreppy fuel st2 [.kEndfor] true with
              | .error e => .error e
              | .ok (st3, _) =>
                pPreppy fuel { st3 with inFor := st3.inFor - 1 } followers pop
            else pPreppy fuel { st2 with inFor := st2.inFor - 1 } followers pop
        | .kIf =>
          match pIfChain fuel { st with toks := rest } with
          | .error e => .error e
          | .ok st2 => pPreppy fuel st2 followers pop
        | .kScript =>
          match rest with
          | [] => .error .outOfFuel
          | t2 :: rest2 =>
            if t2.kind = Kind.kEndscript then
              pPreppy fuel { st with toks := rest2 } followers pop
            else
              match rest2 with
              | [] => .error .outOfFuel
              | t3 :: rest3 =>
                if t3.kind = Kind.kEndscript then
                  pPreppy fuel { st with toks := rest3 } followers pop
                else .error (.endExpected .kEndscript)
        | .kEval =>
          match rest with
          | [] => .error .outOfFuel
          | t2 :: rest2 =>
            if t2.kind = Kind.kEndeval then
              pPreppy fuel { st with toks := rest2 } followers pop
            else
              match rest2 with
              | [] => .error .outOfFuel
              | t3 :: rest3 =>
                if t3.kind = Kind.kEndeval then
                  pPreppy fuel { st with toks := rest3 } followers pop
                else .error (.endExpected .kEndeval)
        | .kWith =>
          match pPreppy fuel { st with toks := rest } [.kEndwith] true with
          | .error e => .error e
          | .ok (st2, _) => pPreppy fuel st2 followers pop
        | .kTry =>
          if tokenTextCR t ≠ ("try".toList) then
            .error (.serror (invalidStmtMsg ("try".toList)))
          else
            match pPreppy fuel { st with toks := rest } [.kExcept, .kFinally] false with
            | .error e => .error e
            | .ok (st2, _) =>
              match pTryLoop fuel st2 with
              | .error e => .error e
              | .ok st3 => pPreppy fuel st3 followers pop
        | .kMatch =>
          match pMatchSkip rest with
          | .error e => .error e
          | .ok rest2 =>
            let st1 : PState := { st with toks := rest2, inMatch := st.inMatch + 1 }
            match pPreppy fuel st1 [.kEndmatch] true with
            | .error e => .error e
            | .ok (st2, _) =>
              pPreppy fuel { st2 with inMatch := st2.inMatch - 1 } followers pop
        | .kCase =>
          match pCaseLoop fuel { st with inCase := st.inCase + 1 } with
          | .error e => .error e
          | .ok st2 =>
            pPreppy fuel { st2 with inCase := st2.inCase - 1 } followers pop
        | _ => .error (.serror invalidSyntaxMsg)
termination_by structural fuel

/-- The `if`/`elif`/`else` chain of `__if` (entered with the `if` header
already consumed; an `elif` terminal re-enters the chain, its header
consumed the same way `__if` backs up `_tokenX` and re-pops it). -/
def pIfChain (fuel : Nat) (st : PState) : Except PErr PState :=
  match fuel with
  | 0 => .error .outOfFuel
  | fuel + 1 =>
    match pPreppy fuel st [.kEndif, .kElif, .kElse] true with
    | .error e => .error e
    | .ok (st2, term) =>
      if term = .kElif then pIfChain fuel st2
      else if term = .kElse then
        match pPreppy fuel st2 [.kEndif] true with
        | .error e => .error e
        | .ok (st3, _) => .ok st3
      else .ok st2
termination_by structural fuel

/-- The `except`/`else`/`finally`/`endtry` loop of `__try` (lines 788–813).
The final branch models the `self.__serr(...)` typo: reaching it raises an
`AttributeError`; it is unreachable on lexer-produced streams. -/
def pTryLoop (fuel : Nat) (st : PState) : Except PErr PState :=
  match fuel with
  | 0 => .error .outOfFuel
  | fuel + 1 =>
    match st.toks with
    | [] => .error .outOfFuel
    | t :: rest =>
      let text := tokenTextCR t
      if lPrefix ("endtry".toList) text then
        if text ≠ ("endtry".toList) then
          .error (.serror (invalidStmtMsg ("endtry".toList)))
        else .ok { st with toks := rest }
      else if lPrefix ("finally".toList) text then
        if text ≠ ("finally".toList) then
          .error (.serror (invalidStmtMsg ("finally".toList)))
        else
          match pPreppy fuel { st with toks := rest } [.kEndtry] true with
          | .error e => .error e
          | .ok (st2, _) => .ok st2
      else if lPrefix ("else".toList) text then
        if text ≠ ("else".toList) then
          .error (.serror (invalidStmtMsg ("else".toList)))
        else
          match pPreppy fuel { st with toks := rest } [.kFinally, .kEndtry] false with
          | .error e => .error e
          | .ok (st2, _) => pTryLoop fuel st2
      else if lPrefix ("except".toList) text then
        let F : List Kind :=
          if text = ("except".toList) then [Kind.kFinally, .kElse, .kEndtry]
          else [Kind.kExcept, .kFinally, .kEndtry, .kElse]
        match pPreppy fuel { st with toks := rest } F false with
        | .error e => .error e
        | .ok (st2, _) => pTryLoop fuel st2
      else .error .attrError
termination_by structural fuel

/-- The `case` sub-body loop of `__case`. -/
def pCaseLoop (fuel : Nat) (st : PState) : Except PErr PState :=
  match fuel with
  | 0 => .error .outOfFuel
  | fuel + 1 =>
    match st.toks with
    | [] => .ok st
    | t :: rest =>
      if t.kind = Kind.kCase then
        match pPreppy fuel { st with toks := rest } [.kCase, .kEndmatch] false with
        | .error e => .error e
        | .ok (st2, _) => pCaseLoop fuel st2
      else .ok st
termination_by structural fuel

end

/-- `__parse`: run the statement loop over a whole token stream with the
`eof` follower. -/
def parseTokens (toks : List LTok) : Except PErr (PState × Kind) :=
  pPreppy (4 * toks.length + 16) ⟨toks, 0, 0, 0, 0, []⟩ [Kind.kEof] true

inductive FrontErr where
  | lex (e : LexErr) : FrontErr
  | parse (e : PErr) : FrontErr
deriving DecidableEq

/-- Lexer followed by parser on template source text. -/
def parseSource (text : List Char) : Except FrontErr PState :=
  match pyTokenize text with
  | .error e => .error (.lex e)
  | .ok toks =>
    match parseTokens toks with
    | .error e => .error (.parse e)
    | .ok (st, _) => .ok st

example : parseSource ("\x7b\x7bif x\x7d\x7da\x7b\x7belse\x7d\x7db\x7b\x7bendif\x7d\x7d".toList)
  = .ok ⟨[], 0, 0, 0, 0, []⟩ := by decide
example : parseSource ("\x7b\x7bfor i in y\x7d\x7da\x7b\x7bbreak\x7d\x7d\x7b\x7bendfor\x7d\x7d".toList)
  = .ok ⟨[], 0, 0, 0, 0, []⟩ := by decide
example : parseSource ("\x7b\x7bbreak\x7d\x7d".toList)
  = .error (.parse (.serror (outsideLoopMsg ("break".toList)))) := by decide
example : parseSource ("\x7b\x7btry\x7d\x7dx\x7b\x7bexcept\x7d\x7dy\x7b\x7bendtry\x7d\x7d".toList)
  = .ok ⟨[], 0, 0, 0, 0, []⟩ := by decide
example : parseSource ("\x7b\x7bscript\x7d\x7d a=0 \x7b\x7bendscript\x7d\x7d".toList)
  = .ok ⟨[], 0, 0, 0, 0, []⟩ := by decide



/-! ## Theorems: `return` placement (C4) -/

/-- C4 counterexample: a `return` directive lexically nested inside the
callable-parameter-block (the `def(...)` first directive) is rejected by the
parser — `__return` consults only the `__inTdef` stack, which `__def` never
pushes — refuting the claim that `return` is accepted exactly inside the
callable-parameter-block. -/
theorem parse_return_in_def_block_rejected :
    parseSource ("\x7b\x7bdef(a)\x7d\x7d\x7b\x7breturn a\x7d\x7d".toList)
      = .error (.parse (.serror (outsideLoopMsg ("return".toList)))) := by decide

/-- C4 (amended): a `return` directive is accepted by the parser exactly
when it is lexically nested inside a named-subblock (`tdef`): whenever the
parser dispatches on a `return` token with an empty `__inTdef` stack it
raises the parse error `return statement outside while or for loop`
(conjunct 1) — in particular inside the callable-parameter-block, which
never pushes that stack — and with a non-empty stack it accepts the token
and continues (conjunct 2); a `return` inside a `tdef` body parses
successfully end-to-end (conjunct 3). -/
theorem parser_return_requires_tdef :
    (∀ (fuel : Nat) (st : PState) (followers : List Kind) (pop : Bool)
        (t : LTok) (rest : List LTok),
      st.toks = t :: rest → t.kind = Kind.kReturn → t.kind ∉ followers →
      st.inTdef = [] →
      pPreppy (fuel + 1) st followers pop
        = .error (.serror (outsideLoopMsg ("return".toList))))
    ∧ (∀ (fuel : Nat) (st : PState) (followers : List Kind) (pop : Bool)
        (t : LTok) (rest : List LTok),
      st.toks = t :: rest → t.kind = Kind.kReturn → t.kind ∉ followers →
      st.inTdef ≠ [] →
      pPreppy (fuel + 1) st followers pop
        = pPreppy fuel { st with toks := rest } followers pop)
    ∧ parseSource
        ("\x7b\x7bdef f(a)\x7d\x7d\x7b\x7breturn 1\x7d\x7d\x7b\x7benddef\x7d\x7d".toList)
      = .ok ⟨[], 0, 0, 0, 0, []⟩ := by
  refine ⟨?_, ?_, by decide⟩
  · intro fuel st followers pop t rest hst hk hf hTdef
    have hf1 : ¬ (Kind.kReturn ∈ followers) := by rw [← hk]; exact hf
    rw [pPreppy, hst]
    simp [hk, hf1, hTdef]
  · intro fuel st followers pop t rest hst hk hf hTdef
    have hf1 : ¬ (Kind.kReturn ∈ followers) := by rw [← hk]; exact hf
    rw [pPreppy, hst]
    simp [hk, hf1, hTdef]

/-- Witness for C4: the return-handler rejection and acceptance at concrete
states, and the end-to-end `tdef` parse, all via the amended theorem. -/
theorem parser_return_requires_tdef_witness :
    pPreppy 1 ⟨[⟨Kind.kReturn, ("return".toList)⟩], 0, 0, 0, 0, []⟩ [Kind.kEof] true
      = .error (.serror (outsideLoopMsg ("return".toList)))
    ∧ pPreppy 1 ⟨[⟨Kind.kReturn, ("return".toList)⟩], 0, 0, 0, 0, [(0, 0)]⟩
        [Kind.kEof] true
      = pPreppy 0 ⟨[], 0, 0, 0, 0, [(0, 0)]⟩ [Kind.kEof] true :=
  ⟨parser_return_requires_tdef.1 0 _ _ _ _ _ rfl rfl (by decide) rfl,
   parser_return_requires_tdef.2.1 0 _ _ _ _ _ rfl rfl (by decide) (by decide)⟩

end Preppy
